import Mathlib

/-!
Shallow embedding of the time-tracking pipeline
(`src/get_time_data.py` collector constants and `src/preprocess_data.py`
normalizer) and proofs of the frozen claims about it.

Python strings are modelled as `List Char`; a Python function that can
raise is modelled as returning `Except PyError _`, where `PyError`
distinguishes the exception classes the code can raise (`KeyError`,
`ValueError`, `IndexError`).
-/

deriving instance DecidableEq for Except

namespace TimeTrack

/-- Python strings, modelled as lists of characters. -/
abbrev Str := List Char

/-- The exception classes the embedded code can raise: `KeyError` (missing
dict key), `ValueError` (raised explicitly by `calculate_duration` and
`get_date`, and by `int()` on a non-numeric token), `IndexError`
(out-of-range list index), `OverflowError` and `ZeroDivisionError`
(float true-division). -/
inductive PyError where
  | keyError
  | valueError
  | indexError
  | overflowError
  | zeroDivisionError
deriving DecidableEq, Repr

/-- Python `s.find(c)`: index of the first occurrence of `c` in `s`,
or `-1` if `c` does not occur. -/
def strFind (l : Str) (c : Char) : Int :=
  match l with
  | [] => -1
  | x :: xs =>
    if x = c then 0
    else
      let r := strFind xs c
      if r = -1 then -1 else r + 1

/-- Python `s.replace(old, new)` for single characters. -/
def replaceChar (old new : Char) (l : Str) : Str :=
  l.map (fun c => if c = old then new else c)

/-- Python `s.split(sep)` for a single-character separator: splitting the
empty string gives `[""]`, and a trailing separator produces a trailing
empty piece. -/
def splitOnChar (sep : Char) : Str → List Str
  | [] => [[]]
  | c :: cs =>
    let r := splitOnChar sep cs
    if c = sep then [] :: r
    else
      match r with
      | [] => [[c]]
      | t :: ts => (c :: t) :: ts

/-- Python `int(v)` on the numeric tokens of a duration string: succeeds on
a non-empty all-digit token with its decimal value, raises `ValueError`
otherwise. (The tokens this program feeds to `int` are unsigned decimal
strings, so sign characters, whitespace and underscores are out of scope.) -/
def parseNat (l : Str) : Except PyError Nat :=
  if l ≠ [] ∧ l.all Char.isDigit then
    .ok (l.foldl (fun a c => a * 10 + (c.toNat - 48)) 0)
  else
    .error .valueError

/-- The list comprehension `[int(v) for v in duration]`
(src/preprocess_data.py line 120): parse the tokens left to right, the
first `ValueError` aborting. -/
def parseAll : List Str → Except PyError (List Nat)
  | [] => .ok []
  | t :: ts =>
    match parseNat t with
    | .error e => .error e
    | .ok n =>
      match parseAll ts with
      | .error e => .error e
      | .ok ns => .ok (n :: ns)

/-- `SECONDS_IN_MINUTE = 60` (src/preprocess_data.py line 8). -/
def SECONDS_IN_MINUTE : Nat := 60

/-- `SECONDS_IN_HOUR = SECONDS_IN_MINUTE * 60` (src/preprocess_data.py line 9). -/
def SECONDS_IN_HOUR : Nat := SECONDS_IN_MINUTE * 60

/-- The accumulation loop of `calculate_duration` (lines 125-141): walk the
`hms_found` flags zipped with their multipliers; each `found` flag consumes
the next unconsumed numeric token (`duration[i]`, with `i` incremented only
on found flags) and adds `token * multiplier` to the total; indexing past
the end of the token list raises `IndexError`. -/
def sumLoop : List (Bool × Nat) → List Nat → Except PyError Nat
  | [], _ => .ok 0
  | (false, _) :: rest, toks => sumLoop rest toks
  | (true, mult) :: rest, toks =>
    match toks with
    | [] => .error .indexError
    | v :: toks2 =>
      match sumLoop rest toks2 with
      | .error e => .error e
      | .ok t => .ok (v * mult + t)

/-- `calculate_duration` (src/preprocess_data.py lines 69-142): strip the
2-character prefix, record which of `H`, `M`, `S` occur (`find` index
`>= 0`), raise `ValueError` when none occurs, replace each unit letter by
`|`, split on `|`, drop empty tokens (`filter(None, ...)`), parse each
token with `int`, then positionally pair found flags with tokens in
`H, M, S` order accumulating `token * multiplier`. -/
def calculate_duration (duration : Str) : Except PyError Nat :=
  let d := duration.drop 2
  let H_idx := strFind d 'H'
  let M_idx := strFind d 'M'
  let S_idx := strFind d 'S'
  let H_idx_found : Bool := H_idx ≥ 0
  let M_idx_found : Bool := M_idx ≥ 0
  let S_idx_found : Bool := S_idx ≥ 0
  let hms_found := [H_idx_found, M_idx_found, S_idx_found]
  if H_idx = -1 ∧ M_idx = -1 ∧ S_idx = -1 then
    .error .valueError
  else
    let d1 := replaceChar 'H' '|' d
    let d2 := replaceChar 'M' '|' d1
    let d3 := replaceChar 'S' '|' d2
    let pieces := splitOnChar '|' d3
    let tokens := pieces.filter (fun t => !t.isEmpty)
    match parseAll tokens with
    | .error e => .error e
    | .ok nums => sumLoop (hms_found.zip [SECONDS_IN_HOUR, SECONDS_IN_MINUTE, 1]) nums

/-- `get_date` (src/preprocess_data.py lines 144-166): the substring before
the first `T`, `ValueError` when there is no `T`. -/
def get_date (isoformattime : Str) : Except PyError Str :=
  let T_index := strFind isoformattime 'T'
  if T_index = -1 then .error .valueError
  else .ok (isoformattime.take T_index.toNat)

/-- Python `dict[key]` lookup on an association-list model of a JSON
object: raises `KeyError` when the key is absent. (The program's dicts
have unique keys, so first-match lookup is an exact model.) -/
def dictGet {α : Type} (d : List (Str × α)) (k : Str) : Except PyError α :=
  match d with
  | [] => .error .keyError
  | (k2, v) :: rest => if k2 = k then .ok v else dictGet rest k

/-- Python `record[key]` for a key that may be absent from a JSON record:
`none` models the key being absent, which raises `KeyError`. -/
def getItem {α : Type} : Option α → Except PyError α
  | none => .error .keyError
  | some v => .ok v

/-- The `timeInterval` object of a raw time entry: keys `start`, `end`,
`duration`. -/
structure TimeInterval where
  start : Str
  end_ : Str
  duration : Str
deriving DecidableEq, Repr

/-- A raw time entry as read from `entries.json`. `taskId` is doubly
optional: the outer `none` models the `taskId` key being absent from the
record (so `datum['taskId']` raises `KeyError`), and `some none` models
the key being present with JSON value `null`. The remaining keys are
modelled as always present, which is all the claims exercise. -/
structure RawEntry where
  taskId : Option (Option Str)
  projectId : Str
  description : Str
  timeInterval : TimeInterval
deriving DecidableEq, Repr

/-- A normalized record (`proc_item`), fields in the order the code
assigns them (src/preprocess_data.py lines 208-234). -/
structure ProcItem where
  task_id : Option Str
  task_name : Option Str
  project_id : Str
  project_name : Str
  description : Str
  start_time_utc : Str
  start_date_utc : Str
  end_time_utc : Str
  end_date_utc : Str
  duration_seconds : Nat
deriving DecidableEq, Repr

/-- Python `str.lower` restricted to the ASCII range (the only characters
the claims exercise). -/
def str_lower (s : Str) : Str := s.map Char.toLower

/-- The task branch of the loop body (src/preprocess_data.py lines
210-215): a `null` `taskId` yields null task fields with no task-table
lookup, a non-null one is looked up in `tasks` (a `KeyError` if absent). -/
def taskFields (tasks : List (Str × Str)) :
    Option Str → Except PyError (Option Str × Option Str)
  | none => .ok (none, none)
  | some t =>
    match dictGet tasks t with
    | .error e => .error e
    | .ok nm => .ok (some t, some nm)

/-- The loop body of `preprocess_data` (src/preprocess_data.py lines
207-238) for one raw entry `datum`: read `datum['taskId']` (a `KeyError`
if the key is absent), resolve the task fields with `taskFields`, look the
project name up as `projects[datum['projectId']][0]`, lowercase the
description, split both timestamps with `get_date`, decode the duration
with `calculate_duration`. Any raised exception aborts the run. -/
def processEntry (projects : List (Str × (Str × List (Str × Str))))
    (tasks : List (Str × Str)) (datum : RawEntry) : Except PyError ProcItem :=
  match getItem datum.taskId with
  | .error e => .error e
  | .ok tid =>
    match taskFields tasks tid with
    | .error e => .error e
    | .ok tpair =>
      match dictGet projects datum.projectId with
      | .error e => .error e
      | .ok pv =>
        match get_date datum.timeInterval.start with
        | .error e => .error e
        | .ok start_date_utc =>
          match get_date datum.timeInterval.end_ with
          | .error e => .error e
          | .ok end_date_utc =>
            match calculate_duration datum.timeInterval.duration with
            | .error e => .error e
            | .ok dur =>
              .ok { task_id := tpair.1, task_name := tpair.2,
                    project_id := datum.projectId, project_name := pv.1,
                    description := str_lower datum.description,
                    start_time_utc := datum.timeInterval.start,
                    start_date_utc := start_date_utc,
                    end_time_utc := datum.timeInterval.end_,
                    end_date_utc := end_date_utc,
                    duration_seconds := dur }

/-- `preprocess_data` (src/preprocess_data.py lines 168-239), over the
already-loaded JSON values: `projects` maps project ID to the pair
(project name, task map), `tasks` maps task ID to task name, `data` is the
raw entry list. Entries are processed in order, each appending one record;
the first exception aborts the whole run. -/
def preprocess_data (projects : List (Str × (Str × List (Str × Str))))
    (tasks : List (Str × Str)) : List RawEntry → Except PyError (List ProcItem)
  | [] => .ok []
  | datum :: rest =>
    match processEntry projects tasks datum with
    | .error e => .error e
    | .ok item =>
      match preprocess_data projects tasks rest with
      | .error e => .error e
      | .ok items => .ok (item :: items)

/-- One CSV cell before the writer stringifies it: the values passed to
`csvwriter.writerow` are strings, `None`-or-string task fields, or the
integer duration. -/
inductive Cell where
  | str (s : Str)
  | optStr (s : Option Str)
  | nat (n : Nat)
deriving DecidableEq, Repr

/-- `csvwriter.writerow`: append one row to the rows written so far. -/
def writerow (rows : List (List Cell)) (row : List Cell) : List (List Cell) :=
  rows ++ [row]

/-- The header row written by `export_to_csv`
(src/preprocess_data.py lines 262-265). -/
def headerRow : List Cell :=
  [.str ['P','r','o','j','e','c','t',' ','N','a','m','e'],
   .str ['P','r','o','j','e','c','t',' ','I','D'],
   .str ['T','a','s','k',' ','N','a','m','e'],
   .str ['T','a','s','k',' ','I','D'],
   .str ['D','e','s','c','r','i','p','t','i','o','n'],
   .str ['S','t','a','r','t',' ','T','i','m','e',' ','(','U','T','C',')'],
   .str ['S','t','a','r','t',' ','D','a','t','e',' ','(','U','T','C',')'],
   .str ['E','n','d',' ','T','i','m','e',' ','(','U','T','C',')'],
   .str ['E','n','d',' ','D','a','t','e',' ','(','U','T','C',')'],
   .str ['D','u','r','a','t','i','o','n',' ','(','S','e','c','o','n','d','s',')']]

/-- The data row `export_to_csv` writes for one record
(src/preprocess_data.py lines 267-270). -/
def csvRow (pi : ProcItem) : List Cell :=
  [.str pi.project_name, .str pi.project_id, .optStr pi.task_name,
   .optStr pi.task_id, .str pi.description, .str pi.start_time_utc,
   .str pi.start_date_utc, .str pi.end_time_utc, .str pi.end_date_utc,
   .nat pi.duration_seconds]

/-- `export_to_csv` (src/preprocess_data.py lines 241-270), with the file
modelled as the list of rows written: write the header row, then one row
per record in a loop over the input list. -/
def export_to_csv (preproc_data : List ProcItem) : List (List Cell) :=
  let rows := writerow [] headerRow
  preproc_data.foldl (fun acc pi => writerow acc (csvRow pi)) rows

/-- The record field list in the order the specification's section 3
states it. Modelled from the spec's words (`task_id, task_name,
project_id, project_name, description, start_time_utc, start_date_utc,
end_time_utc, end_date_utc, duration_seconds`), for comparison with the
column order the code writes. -/
def specFieldRow (pi : ProcItem) : List Cell :=
  [.optStr pi.task_id, .optStr pi.task_name, .str pi.project_id,
   .str pi.project_name, .str pi.description, .str pi.start_time_utc,
   .str pi.start_date_utc, .str pi.end_time_utc, .str pi.end_date_utc,
   .nat pi.duration_seconds]

/-- `ENTRIES_PER_PAGE = 50` (src/get_time_data.py line 15). -/
def ENTRIES_PER_PAGE : Nat := 50

/-- Round a rational to the nearest integer, ties to the even integer:
the rounding CPython applies to the 53-bit significand of an int-by-int
true division. -/
def roundHalfEven (x : ℚ) : ℤ :=
  if x - ⌊x⌋ < 1/2 then ⌊x⌋
  else if 1/2 < x - ⌊x⌋ then ⌊x⌋ + 1
  else if ⌊x⌋ % 2 = 0 then ⌊x⌋ else ⌊x⌋ + 1

/-- The IEEE-754 binary64 value nearest to a nonnegative rational `q`
(round to nearest, ties to even), as the exact rational it denotes: the
significand of `q` is rounded to 53 bits at the scale set by its binary
exponent `Int.log 2 q`. The exponent is unbounded here; overflow is
checked by the caller, and the subnormal range (below `2 ^ (-1022)`,
where binary64 rounds more coarsely) is unreachable for the quotients
this program forms, which are `0` or at least `1 / 50`. -/
def roundDouble (q : ℚ) : ℚ :=
  if q = 0 then 0
  else (roundHalfEven (q * 2 ^ (52 - Int.log 2 q)) : ℚ) / 2 ^ (52 - Int.log 2 q)

/-- Python float true-division `a / b` on nonnegative ints, as CPython
computes it for `num_entries / ENTRIES_PER_PAGE` (src/get_time_data.py
line 92): the exact quotient correctly rounded to binary64, with
`ZeroDivisionError` for `b = 0` and `OverflowError` when the rounded
value reaches `2 ^ 1024`. -/
def float_truediv (a b : Nat) : Except PyError ℚ :=
  if b = 0 then .error .zeroDivisionError
  else if roundDouble ((a : ℚ) / (b : ℚ)) < 2 ^ (1024 : ℕ) then
    .ok (roundDouble ((a : ℚ) / (b : ℚ)))
  else .error .overflowError

/-- `num_pages = int(math.ceil(num_entries / ENTRIES_PER_PAGE))`
(src/get_time_data.py line 92): float true-division of the two ints,
then `math.ceil`, which is exact on floats, then `int`, the identity on
the resulting int. -/
def num_pages (num_entries : Nat) : Except PyError Int :=
  match float_truediv num_entries ENTRIES_PER_PAGE with
  | .error e => .error e
  | .ok d => .ok ⌈d⌉

/-- Proof helper: the combined effect on one character of the three
successive `replace` calls in `calculate_duration`. -/
def unitRepl (c : Char) : Char :=
  if c = 'H' ∨ c = 'M' ∨ c = 'S' then '|' else c

/-! Lemmas about the string primitives. -/

theorem strFind_eq_neg_one_or_nonneg (l : Str) (c : Char) :
    strFind l c = -1 ∨ 0 ≤ strFind l c := by
  induction l with
  | nil => left; rfl
  | cons x xs ih =>
    simp only [strFind]
    by_cases hx : x = c
    · right; simp [hx]
    · rw [if_neg hx]
      rcases ih with h | h
      · left; simp [h]
      · right
        have hne : strFind xs c ≠ -1 := by omega
        rw [if_neg hne]
        omega

theorem strFind_eq_neg_one_iff (l : Str) (c : Char) :
    strFind l c = -1 ↔ c ∉ l := by
  induction l with
  | nil => simp [strFind]
  | cons x xs ih =>
    simp only [strFind]
    by_cases hx : x = c
    · subst hx
      simp
    · rw [if_neg hx]
      rcases strFind_eq_neg_one_or_nonneg xs c with h | h
      · rw [if_pos h]
        simp only [List.mem_cons, not_or]
        constructor
        · intro _
          exact ⟨fun e => hx e.symm, ih.mp h⟩
        · intro _
          trivial
      · have hne : strFind xs c ≠ -1 := by omega
        rw [if_neg hne]
        simp only [List.mem_cons, not_or]
        constructor
        · intro habs
          exact absurd habs (by omega)
        · intro ⟨_, hxs⟩
          exact absurd (ih.mpr hxs) hne

theorem strFind_nonneg_iff (l : Str) (c : Char) :
    0 ≤ strFind l c ↔ c ∈ l := by
  rcases strFind_eq_neg_one_or_nonneg l c with h | h
  · rw [h]
    constructor
    · intro h0
      exact absurd h0 (by norm_num)
    · intro hm
      exact absurd hm ((strFind_eq_neg_one_iff l c).mp h)
  · simp only [h, true_iff]
    by_contra hm
    have := (strFind_eq_neg_one_iff l c).mpr hm
    omega

theorem strFind_append_cons (a b : Str) (c : Char) (h : c ∉ a) :
    strFind (a ++ c :: b) c = a.length := by
  induction a with
  | nil => simp [strFind]
  | cons x xs ih =>
    have hx : x ≠ c := fun e => h (e ▸ List.mem_cons_self x xs)
    have hxs : c ∉ xs := fun m => h (List.mem_cons_of_mem _ m)
    simp only [List.cons_append, strFind, List.append_eq]
    rw [if_neg hx, ih hxs]
    have hlen : ((xs.length : Int)) ≠ -1 := by omega
    rw [if_neg hlen]
    simp only [List.length_cons]
    omega

theorem splitOnChar_of_not_mem (sep : Char) (a : Str) (h : sep ∉ a) :
    splitOnChar sep a = [a] := by
  induction a with
  | nil => rfl
  | cons x xs ih =>
    have hx : x ≠ sep := fun e => h (e ▸ List.mem_cons_self x xs)
    have hxs : sep ∉ xs := fun m => h (List.mem_cons_of_mem _ m)
    simp only [splitOnChar]
    rw [if_neg hx, ih hxs]

theorem splitOnChar_append_cons (sep : Char) (a b : Str) (h : sep ∉ a) :
    splitOnChar sep (a ++ sep :: b) = a :: splitOnChar sep b := by
  induction a with
  | nil => simp [splitOnChar]
  | cons x xs ih =>
    have hx : x ≠ sep := fun e => h (e ▸ List.mem_cons_self x xs)
    have hxs : sep ∉ xs := fun m => h (List.mem_cons_of_mem _ m)
    simp only [List.cons_append, splitOnChar, List.append_eq]
    rw [if_neg hx, ih hxs]

theorem triple_replace (l : Str) :
    replaceChar 'S' '|' (replaceChar 'M' '|' (replaceChar 'H' '|' l)) =
      l.map unitRepl := by
  simp only [replaceChar, List.map_map]
  refine List.map_congr_left fun c _ => ?_
  by_cases h1 : c = 'H'
  · subst h1; rfl
  · by_cases h2 : c = 'M'
    · subst h2; rfl
    · by_cases h3 : c = 'S'
      · subst h3; rfl
      · simp [Function.comp, unitRepl, h1, h2, h3]

theorem digit_ne_units {c : Char} (h : c.isDigit = true) :
    c ≠ 'H' ∧ c ≠ 'M' ∧ c ≠ 'S' ∧ c ≠ '|' ∧ c ≠ 'T' := by
  refine ⟨?_, ?_, ?_, ?_, ?_⟩ <;> rintro rfl <;> simp [Char.isDigit] at h

theorem digits_not_mem {d : Str} (hd : d.all Char.isDigit = true) :
    'H' ∉ d ∧ 'M' ∉ d ∧ 'S' ∉ d ∧ '|' ∉ d := by
  rw [List.all_eq_true] at hd
  refine ⟨fun m => ?_, fun m => ?_, fun m => ?_, fun m => ?_⟩
  · exact (digit_ne_units (hd _ m)).1 rfl
  · exact (digit_ne_units (hd _ m)).2.1 rfl
  · exact (digit_ne_units (hd _ m)).2.2.1 rfl
  · exact (digit_ne_units (hd _ m)).2.2.2.1 rfl

theorem map_unitRepl_digits {d : Str} (hd : d.all Char.isDigit = true) :
    d.map unitRepl = d := by
  rw [List.all_eq_true] at hd
  conv_rhs => rw [← List.map_id d]
  refine List.map_congr_left fun c m => ?_
  rcases digit_ne_units (hd c m) with ⟨h1, h2, h3, _, _⟩
  simp [unitRepl, h1, h2, h3]

theorem parseNat_ok_elim {l : Str} {n : Nat} (h : parseNat l = .ok n) :
    l ≠ [] ∧ l.all Char.isDigit = true := by
  by_cases hc : l ≠ [] ∧ l.all Char.isDigit
  · exact ⟨hc.1, hc.2⟩
  · rw [parseNat, if_neg hc] at h
    cases h

theorem unitRepl_H : unitRepl 'H' = '|' := by decide

theorem unitRepl_M : unitRepl 'M' = '|' := by decide

theorem unitRepl_S : unitRepl 'S' = '|' := by decide

/-- Evaluation of `calculate_duration` on a string whose body `B` (after
the 2-character prefix) has known unit-letter membership `bH, bM, bS` and
whose token pipeline parses to `nums`. -/
theorem calculate_duration_spec (p1 p2 : Char) (B : Str) (bH bM bS : Bool)
    (hfH : 'H' ∈ B ↔ bH = true) (hfM : 'M' ∈ B ↔ bM = true)
    (hfS : 'S' ∈ B ↔ bS = true)
    (hne : bH = true ∨ bM = true ∨ bS = true)
    (nums : List Nat)
    (htoks : parseAll ((splitOnChar '|' (B.map unitRepl)).filter
        (fun t => !t.isEmpty)) = .ok nums) :
    calculate_duration (p1 :: p2 :: B) =
      sumLoop ([bH, bM, bS].zip [SECONDS_IN_HOUR, SECONDS_IN_MINUTE, 1]) nums := by
  have hdrop : List.drop 2 (p1 :: p2 :: B) = B := rfl
  cases bH <;> cases bM <;> cases bS
  case false.false.false =>
    rcases hne with h | h | h <;> cases h
  all_goals
    simp only [calculate_duration, hdrop, triple_replace]
  case false.false.true =>
    have hS0 : strFind B 'S' ≥ 0 := (strFind_nonneg_iff B 'S').mpr (hfS.mpr rfl)
    have hH1 : strFind B 'H' = -1 :=
      (strFind_eq_neg_one_iff B 'H').mpr (fun m => by simpa using hfH.mp m)
    have hM1 : strFind B 'M' = -1 :=
      (strFind_eq_neg_one_iff B 'M').mpr (fun m => by simpa using hfM.mp m)
    have hcond : ¬(strFind B 'H' = -1 ∧ strFind B 'M' = -1 ∧ strFind B 'S' = -1) := by
      intro h
      omega
    rw [if_neg hcond, htoks]
    have dH : decide (strFind B 'H' ≥ 0) = false := decide_eq_false (by omega)
    have dM : decide (strFind B 'M' ≥ 0) = false := decide_eq_false (by omega)
    have dS : decide (strFind B 'S' ≥ 0) = true := decide_eq_true hS0
    simp only [dH, dM, dS]
  case false.true.false =>
    have hM0 : strFind B 'M' ≥ 0 := (strFind_nonneg_iff B 'M').mpr (hfM.mpr rfl)
    have hH1 : strFind B 'H' = -1 :=
      (strFind_eq_neg_one_iff B 'H').mpr (fun m => by simpa using hfH.mp m)
    have hS1 : strFind B 'S' = -1 :=
      (strFind_eq_neg_one_iff B 'S').mpr (fun m => by simpa using hfS.mp m)
    have hcond : ¬(strFind B 'H' = -1 ∧ strFind B 'M' = -1 ∧ strFind B 'S' = -1) := by
      intro h
      omega
    rw [if_neg hcond, htoks]
    have dH : decide (strFind B 'H' ≥ 0) = false := decide_eq_false (by omega)
    have dM : decide (strFind B 'M' ≥ 0) = true := decide_eq_true hM0
    have dS : decide (strFind B 'S' ≥ 0) = false := decide_eq_false (by omega)
    simp only [dH, dM, dS]
  case false.true.true =>
    have hM0 : strFind B 'M' ≥ 0 := (strFind_nonneg_iff B 'M').mpr (hfM.mpr rfl)
    have hS0 : strFind B 'S' ≥ 0 := (strFind_nonneg_iff B 'S').mpr (hfS.mpr rfl)
    have hH1 : strFind B 'H' = -1 :=
      (strFind_eq_neg_one_iff B 'H').mpr (fun m => by simpa using hfH.mp m)
    have hcond : ¬(strFind B 'H' = -1 ∧ strFind B 'M' = -1 ∧ strFind B 'S' = -1) := by
      intro h
      omega
    rw [if_neg hcond, htoks]
    have dH : decide (strFind B 'H' ≥ 0) = false := decide_eq_false (by omega)
    have dM : decide (strFind B 'M' ≥ 0) = true := decide_eq_true hM0
    have dS : decide (strFind B 'S' ≥ 0) = true := decide_eq_true hS0
    simp only [dH, dM, dS]
  case true.false.false =>
    have hH0 : strFind B 'H' ≥ 0 := (strFind_nonneg_iff B 'H').mpr (hfH.mpr rfl)
    have hM1 : strFind B 'M' = -1 :=
      (strFind_eq_neg_one_iff B 'M').mpr (fun m => by simpa using hfM.mp m)
    have hS1 : strFind B 'S' = -1 :=
      (strFind_eq_neg_one_iff B 'S').mpr (fun m => by simpa using hfS.mp m)
    have hcond : ¬(strFind B 'H' = -1 ∧ strFind B 'M' = -1 ∧ strFind B 'S' = -1) := by
      intro h
      omega
    rw [if_neg hcond, htoks]
    have dH : decide (strFind B 'H' ≥ 0) = true := decide_eq_true hH0
    have dM : decide (strFind B 'M' ≥ 0) = false := decide_eq_false (by omega)
    have dS : decide (strFind B 'S' ≥ 0) = false := decide_eq_false (by omega)
    simp only [dH, dM, dS]
  case true.false.true =>
    have hH0 : strFind B 'H' ≥ 0 := (strFind_nonneg_iff B 'H').mpr (hfH.mpr rfl)
    have hS0 : strFind B 'S' ≥ 0 := (strFind_nonneg_iff B 'S').mpr (hfS.mpr rfl)
    have hM1 : strFind B 'M' = -1 :=
      (strFind_eq_neg_one_iff B 'M').mpr (fun m => by simpa using hfM.mp m)
    have hcond : ¬(strFind B 'H' = -1 ∧ strFind B 'M' = -1 ∧ strFind B 'S' = -1) := by
      intro h
      omega
    rw [if_neg hcond, htoks]
    have dH : decide (strFind B 'H' ≥ 0) = true := decide_eq_true hH0
    have dM : decide (strFind B 'M' ≥ 0) = false := decide_eq_false (by omega)
    have dS : decide (strFind B 'S' ≥ 0) = true := decide_eq_true hS0
    simp only [dH, dM, dS]
  case true.true.false =>
    have hH0 : strFind B 'H' ≥ 0 := (strFind_nonneg_iff B 'H').mpr (hfH.mpr rfl)
    have hM0 : strFind B 'M' ≥ 0 := (strFind_nonneg_iff B 'M').mpr (hfM.mpr rfl)
    have hS1 : strFind B 'S' = -1 :=
      (strFind_eq_neg_one_iff B 'S').mpr (fun m => by simpa using hfS.mp m)
    have hcond : ¬(strFind B 'H' = -1 ∧ strFind B 'M' = -1 ∧ strFind B 'S' = -1) := by
      intro h
      omega
    rw [if_neg hcond, htoks]
    have dH : decide (strFind B 'H' ≥ 0) = true := decide_eq_true hH0
    have dM : decide (strFind B 'M' ≥ 0) = true := decide_eq_true hM0
    have dS : decide (strFind B 'S' ≥ 0) = false := decide_eq_false (by omega)
    simp only [dH, dM, dS]
  case true.true.true =>
    have hH0 : strFind B 'H' ≥ 0 := (strFind_nonneg_iff B 'H').mpr (hfH.mpr rfl)
    have hM0 : strFind B 'M' ≥ 0 := (strFind_nonneg_iff B 'M').mpr (hfM.mpr rfl)
    have hS0 : strFind B 'S' ≥ 0 := (strFind_nonneg_iff B 'S').mpr (hfS.mpr rfl)
    have hcond : ¬(strFind B 'H' = -1 ∧ strFind B 'M' = -1 ∧ strFind B 'S' = -1) := by
      intro h
      omega
    rw [if_neg hcond, htoks]
    have dH : decide (strFind B 'H' ≥ 0) = true := decide_eq_true hH0
    have dM : decide (strFind B 'M' ≥ 0) = true := decide_eq_true hM0
    have dS : decide (strFind B 'S' ≥ 0) = true := decide_eq_true hS0
    simp only [dH, dM, dS]

/-- C1: for every valid duration string — any 2-character prefix followed
by a non-empty subset of the units `H`, `M`, `S` in that order, each
preceded by a nonnegative decimal numeral — `calculate_duration` returns
exactly `hours * 3600 + minutes * 60 + seconds` over the present
components. -/
theorem C1_calculate_duration_components (p1 p2 : Char) (hp mp sp : Bool)
    (dh dm ds : Str) (h m s : Nat)
    (Hh : parseNat dh = .ok h) (Hm : parseNat dm = .ok m)
    (Hs : parseNat ds = .ok s)
    (Hne : hp = true ∨ mp = true ∨ sp = true) :
    calculate_duration
      (p1 :: p2 :: ((if hp then dh ++ ['H'] else []) ++
        ((if mp then dm ++ ['M'] else []) ++ (if sp then ds ++ ['S'] else [])))) =
      .ok ((if hp then h * 3600 else 0) + (if mp then m * 60 else 0) +
        (if sp then s else 0)) := by
  obtain ⟨hdh_ne, hdh_dig⟩ := parseNat_ok_elim Hh
  obtain ⟨hdm_ne, hdm_dig⟩ := parseNat_ok_elim Hm
  obtain ⟨hds_ne, hds_dig⟩ := parseNat_ok_elim Hs
  obtain ⟨hHdh, hMdh, hSdh, hPdh⟩ := digits_not_mem hdh_dig
  obtain ⟨hHdm, hMdm, hSdm, hPdm⟩ := digits_not_mem hdm_dig
  obtain ⟨hHds, hMds, hSds, hPds⟩ := digits_not_mem hds_dig
  have hmapdh := map_unitRepl_digits hdh_dig
  have hmapdm := map_unitRepl_digits hdm_dig
  have hmapds := map_unitRepl_digits hds_dig
  have hEdh : dh.isEmpty = false := by
    cases dh with
    | nil => exact absurd rfl hdh_ne
    | cons a l => rfl
  have hEdm : dm.isEmpty = false := by
    cases dm with
    | nil => exact absurd rfl hdm_ne
    | cons a l => rfl
  have hEds : ds.isEmpty = false := by
    cases ds with
    | nil => exact absurd rfl hds_ne
    | cons a l => rfl
  cases hp <;> cases mp <;> cases sp
  case false.false.false => simp at Hne
  case false.false.true =>
    simp only [Bool.false_eq_true, eq_self_iff_true, if_true,if_false, List.nil_append]
    have htoks : parseAll ((splitOnChar '|'
        ((ds ++ 'S' :: []).map unitRepl)).filter (fun t => !t.isEmpty)) = .ok [s] := by
      rw [List.map_append, List.map_cons, hmapds, unitRepl_S, List.map_nil]
      rw [splitOnChar_append_cons _ _ _ hPds]
      simp only [splitOnChar, List.filter_cons, List.filter_nil, hEds,
        List.isEmpty_nil, Bool.not_false, Bool.not_true, if_true, if_false]
      simp [parseAll, Hs]
    rw [calculate_duration_spec p1 p2 _ false false true
      (by simp [hHds]) (by simp [hMds]) (by simp) (by simp) [s] htoks]
    simp [sumLoop, List.zip, SECONDS_IN_MINUTE, SECONDS_IN_HOUR]
  case false.true.false =>
    simp only [Bool.false_eq_true, eq_self_iff_true, if_true,if_false, List.nil_append, List.append_nil]
    have htoks : parseAll ((splitOnChar '|'
        ((dm ++ 'M' :: []).map unitRepl)).filter (fun t => !t.isEmpty)) = .ok [m] := by
      rw [List.map_append, List.map_cons, hmapdm, unitRepl_M, List.map_nil]
      rw [splitOnChar_append_cons _ _ _ hPdm]
      simp only [splitOnChar, List.filter_cons, List.filter_nil, hEdm,
        List.isEmpty_nil, Bool.not_false, Bool.not_true, if_true, if_false]
      simp [parseAll, Hm]
    rw [calculate_duration_spec p1 p2 _ false true false
      (by simp [hHdm]) (by simp) (by simp [hSdm]) (by simp) [m] htoks]
    simp [sumLoop, List.zip, SECONDS_IN_MINUTE, SECONDS_IN_HOUR]
  case false.true.true =>
    simp only [Bool.false_eq_true, eq_self_iff_true, if_true,if_false, List.nil_append, List.append_assoc,
      List.cons_append]
    have htoks : parseAll ((splitOnChar '|'
        ((dm ++ 'M' :: (ds ++ 'S' :: [])).map unitRepl)).filter
          (fun t => !t.isEmpty)) = .ok [m, s] := by
      rw [List.map_append, List.map_cons, hmapdm, unitRepl_M,
        List.map_append, List.map_cons, hmapds, unitRepl_S, List.map_nil]
      rw [splitOnChar_append_cons _ _ _ hPdm, splitOnChar_append_cons _ _ _ hPds]
      simp only [splitOnChar, List.filter_cons, List.filter_nil, hEdm, hEds,
        List.isEmpty_nil, Bool.not_false, Bool.not_true, if_true, if_false]
      simp [parseAll, Hm, Hs]
    rw [calculate_duration_spec p1 p2 _ false true true
      (by simp [hHdm, hHds]) (by simp) (by simp) (by simp) [m, s] htoks]
    simp [sumLoop, List.zip, SECONDS_IN_MINUTE, SECONDS_IN_HOUR]
  case true.false.false =>
    simp only [Bool.false_eq_true, eq_self_iff_true, if_true,if_false, List.append_nil]
    have htoks : parseAll ((splitOnChar '|'
        ((dh ++ 'H' :: []).map unitRepl)).filter (fun t => !t.isEmpty)) = .ok [h] := by
      rw [List.map_append, List.map_cons, hmapdh, unitRepl_H, List.map_nil]
      rw [splitOnChar_append_cons _ _ _ hPdh]
      simp only [splitOnChar, List.filter_cons, List.filter_nil, hEdh,
        List.isEmpty_nil, Bool.not_false, Bool.not_true, if_true, if_false]
      simp [parseAll, Hh]
    rw [calculate_duration_spec p1 p2 _ true false false
      (by simp) (by simp [hMdh]) (by simp [hSdh]) (by simp) [h] htoks]
    simp [sumLoop, List.zip, SECONDS_IN_MINUTE, SECONDS_IN_HOUR]
  case true.false.true =>
    simp only [Bool.false_eq_true, eq_self_iff_true, if_true,if_false, List.nil_append, List.append_assoc,
      List.cons_append]
    have htoks : parseAll ((splitOnChar '|'
        ((dh ++ 'H' :: (ds ++ 'S' :: [])).map unitRepl)).filter
          (fun t => !t.isEmpty)) = .ok [h, s] := by
      rw [List.map_append, List.map_cons, hmapdh, unitRepl_H,
        List.map_append, List.map_cons, hmapds, unitRepl_S, List.map_nil]
      rw [splitOnChar_append_cons _ _ _ hPdh, splitOnChar_append_cons _ _ _ hPds]
      simp only [splitOnChar, List.filter_cons, List.filter_nil, hEdh, hEds,
        List.isEmpty_nil, Bool.not_false, Bool.not_true, if_true, if_false]
      simp [parseAll, Hh, Hs]
    rw [calculate_duration_spec p1 p2 _ true false true
      (by simp) (by simp [hMdh, hMds]) (by simp) (by simp) [h, s] htoks]
    simp [sumLoop, List.zip, SECONDS_IN_MINUTE, SECONDS_IN_HOUR]
  case true.true.false =>
    simp only [Bool.false_eq_true, eq_self_iff_true, if_true,if_false, List.append_nil, List.append_assoc,
      List.cons_append, List.nil_append]
    have htoks : parseAll ((splitOnChar '|'
        ((dh ++ 'H' :: (dm ++ 'M' :: [])).map unitRepl)).filter
          (fun t => !t.isEmpty)) = .ok [h, m] := by
      rw [List.map_append, List.map_cons, hmapdh, unitRepl_H,
        List.map_append, List.map_cons, hmapdm, unitRepl_M, List.map_nil]
      rw [splitOnChar_append_cons _ _ _ hPdh, splitOnChar_append_cons _ _ _ hPdm]
      simp only [splitOnChar, List.filter_cons, List.filter_nil, hEdh, hEdm,
        List.isEmpty_nil, Bool.not_false, Bool.not_true, if_true, if_false]
      simp [parseAll, Hh, Hm]
    rw [calculate_duration_spec p1 p2 _ true true false
      (by simp) (by simp) (by simp [hSdh, hSdm]) (by simp) [h, m] htoks]
    simp [sumLoop, List.zip, SECONDS_IN_MINUTE, SECONDS_IN_HOUR]
  case true.true.true =>
    simp only [Bool.false_eq_true, eq_self_iff_true, if_true,List.append_assoc, List.cons_append,
      List.nil_append]
    have htoks : parseAll ((splitOnChar '|'
        ((dh ++ 'H' :: (dm ++ 'M' :: (ds ++ 'S' :: []))).map unitRepl)).filter
          (fun t => !t.isEmpty)) = .ok [h, m, s] := by
      rw [List.map_append, List.map_cons, hmapdh, unitRepl_H,
        List.map_append, List.map_cons, hmapdm, unitRepl_M,
        List.map_append, List.map_cons, hmapds, unitRepl_S, List.map_nil]
      rw [splitOnChar_append_cons _ _ _ hPdh, splitOnChar_append_cons _ _ _ hPdm,
        splitOnChar_append_cons _ _ _ hPds]
      simp only [splitOnChar, List.filter_cons, List.filter_nil, hEdh, hEdm, hEds,
        List.isEmpty_nil, Bool.not_false, Bool.not_true, if_true, if_false]
      simp [parseAll, Hh, Hm, Hs]
    rw [calculate_duration_spec p1 p2 _ true true true
      (by simp) (by simp) (by simp) (by simp) [h, m, s] htoks]
    simp [sumLoop, List.zip, SECONDS_IN_MINUTE, SECONDS_IN_HOUR]
    omega

/-- Witness for C1 at the five concrete cases the spec lists:
`PT1H3M6S -> 3786`, `PT45M -> 2700`, `PT30S -> 30`, `PT2H -> 7200`,
`PT1H30S -> 3630`. -/
theorem C1_calculate_duration_components_witness :
    calculate_duration ['P','T','1','H','3','M','6','S'] = .ok 3786 ∧
    calculate_duration ['P','T','4','5','M'] = .ok 2700 ∧
    calculate_duration ['P','T','3','0','S'] = .ok 30 ∧
    calculate_duration ['P','T','2','H'] = .ok 7200 ∧
    calculate_duration ['P','T','1','H','3','0','S'] = .ok 3630 :=
  ⟨C1_calculate_duration_components 'P' 'T' true true true
      ['1'] ['3'] ['6'] 1 3 6 (by decide) (by decide) (by decide) (Or.inl rfl),
   C1_calculate_duration_components 'P' 'T' false true false
      ['0'] ['4','5'] ['0'] 0 45 0 (by decide) (by decide) (by decide)
      (Or.inr (Or.inl rfl)),
   C1_calculate_duration_components 'P' 'T' false false true
      ['0'] ['0'] ['3','0'] 0 0 30 (by decide) (by decide) (by decide)
      (Or.inr (Or.inr rfl)),
   C1_calculate_duration_components 'P' 'T' true false false
      ['2'] ['0'] ['0'] 2 0 0 (by decide) (by decide) (by decide) (Or.inl rfl),
   C1_calculate_duration_components 'P' 'T' true false true
      ['1'] ['0'] ['3','0'] 1 0 30 (by decide) (by decide) (by decide)
      (Or.inl rfl)⟩

/-- C2: for every input string in which none of the unit letters `H`, `M`,
`S` appears after the 2-character prefix, `calculate_duration` fails with
the `ValueError` raised at the no-units check instead of returning a
number. -/
theorem C2_calculate_duration_no_units (l : Str)
    (hH : 'H' ∉ l.drop 2) (hM : 'M' ∉ l.drop 2) (hS : 'S' ∉ l.drop 2) :
    calculate_duration l = .error .valueError := by
  have h1 : strFind (l.drop 2) 'H' = -1 := (strFind_eq_neg_one_iff _ _).mpr hH
  have h2 : strFind (l.drop 2) 'M' = -1 := (strFind_eq_neg_one_iff _ _).mpr hM
  have h3 : strFind (l.drop 2) 'S' = -1 := (strFind_eq_neg_one_iff _ _).mpr hS
  simp [calculate_duration, h1, h2, h3]

/-- Witness for C2 at the spec's example `PTX`. -/
theorem C2_calculate_duration_no_units_witness :
    calculate_duration ['P','T','X'] = .error .valueError :=
  C2_calculate_duration_no_units ['P','T','X'] (by decide) (by decide) (by decide)

/-- C3: the out-of-order input `PT5M3H` does not raise a format error;
positional pairing matches the first numeric token `5` with `H` and the
second token `3` with `M`, returning the silently wrong total
`5 * 3600 + 3 * 60 = 18180`. -/
theorem C3_out_of_order_silently_wrong :
    calculate_duration ['P','T','5','M','3','H'] = .ok (5 * 3600 + 3 * 60) := by
  decide

/-- C4: `get_date` returns the substring strictly preceding the first `T`
of a timestamp that contains one, and fails with the `ValueError` raised
for a missing separator otherwise. -/
theorem C4_get_date (a b l : Str) (ha : 'T' ∉ a) (hl : 'T' ∉ l) :
    get_date (a ++ 'T' :: b) = .ok a ∧ get_date l = .error .valueError := by
  constructor
  · have hf : strFind (a ++ 'T' :: b) 'T' = a.length := strFind_append_cons a b 'T' ha
    have hne : ((a.length : Int)) ≠ -1 := by omega
    simp only [get_date, hf]
    rw [if_neg hne]
    simp [List.take_left]
  · have hf : strFind l 'T' = -1 := (strFind_eq_neg_one_iff _ _).mpr hl
    simp [get_date, hf]

/-- Witness for C4 at the spec's example
`get_date("2023-05-01T10:00:00Z") = "2023-05-01"` and a separator-free
string. -/
theorem C4_get_date_witness :
    get_date ['2','0','2','3','-','0','5','-','0','1','T','1','0',':','0','0',':','0','0','Z']
      = .ok ['2','0','2','3','-','0','5','-','0','1'] ∧
    get_date ['n','o','d','a','t','e'] = .error .valueError :=
  C4_get_date ['2','0','2','3','-','0','5','-','0','1']
    ['1','0',':','0','0',':','0','0','Z'] ['n','o','d','a','t','e']
    (by decide) (by decide)

/-! Lemmas about the normalizer. -/

theorem dictGet_error_eq {α : Type} {d : List (Str × α)} {k : Str} {e : PyError}
    (h : dictGet d k = .error e) : e = .keyError := by
  induction d with
  | nil =>
    rw [dictGet] at h
    cases h
    rfl
  | cons p rest ih =>
    rw [dictGet] at h
    by_cases hk : p.1 = k
    · rw [if_pos hk] at h
      cases h
    · rw [if_neg hk] at h
      exact ih h

theorem taskFields_ok_iff {tasks : List (Str × Str)} {tid : Option Str}
    {tp : Option Str × Option Str} :
    taskFields tasks tid = .ok tp ↔
      (tid = none ∧ tp = (none, none)) ∨
      (∃ t nm, tid = some t ∧ dictGet tasks t = .ok nm ∧
        tp = (some t, some nm)) := by
  constructor
  · intro h
    rcases tid with _ | t
    · left
      rw [taskFields] at h
      exact ⟨rfl, (Except.ok.inj h).symm⟩
    · right
      rw [taskFields] at h
      cases h1 : dictGet tasks t with
      | error e =>
        rw [h1] at h
        cases h
      | ok nm =>
        rw [h1] at h
        exact ⟨t, nm, rfl, h1, (Except.ok.inj h).symm⟩
  · rintro (⟨rfl, rfl⟩ | ⟨t, nm, rfl, h1, rfl⟩)
    · rfl
    · simp [taskFields, h1]

theorem processEntry_ok_iff {projects : List (Str × (Str × List (Str × Str)))}
    {tasks : List (Str × Str)} {datum : RawEntry} {r : ProcItem} :
    processEntry projects tasks datum = .ok r ↔
      ∃ tid tpair pv sd ed dur,
        datum.taskId = some tid ∧
        taskFields tasks tid = .ok tpair ∧
        dictGet projects datum.projectId = .ok pv ∧
        get_date datum.timeInterval.start = .ok sd ∧
        get_date datum.timeInterval.end_ = .ok ed ∧
        calculate_duration datum.timeInterval.duration = .ok dur ∧
        r = { task_id := tpair.1, task_name := tpair.2,
              project_id := datum.projectId, project_name := pv.1,
              description := str_lower datum.description,
              start_time_utc := datum.timeInterval.start,
              start_date_utc := sd,
              end_time_utc := datum.timeInterval.end_,
              end_date_utc := ed,
              duration_seconds := dur } := by
  constructor
  · intro h
    rw [processEntry] at h
    rcases htid : datum.taskId with _ | tid
    · rw [htid] at h
      simp [getItem] at h
    · rw [htid] at h
      simp only [getItem] at h
      cases h1 : taskFields tasks tid with
      | error e =>
        rw [h1] at h
        cases h
      | ok tpair =>
        rw [h1] at h
        cases h2 : dictGet projects datum.projectId with
        | error e =>
          rw [h2] at h
          cases h
        | ok pv =>
          rw [h2] at h
          cases h3 : get_date datum.timeInterval.start with
          | error e =>
            rw [h3] at h
            cases h
          | ok sd =>
            rw [h3] at h
            cases h4 : get_date datum.timeInterval.end_ with
            | error e =>
              rw [h4] at h
              cases h
            | ok ed =>
              rw [h4] at h
              cases h5 : calculate_duration datum.timeInterval.duration with
              | error e =>
                rw [h5] at h
                cases h
              | ok dur =>
                rw [h5] at h
                exact ⟨tid, tpair, pv, sd, ed, dur, rfl, h1, rfl, rfl, rfl, rfl,
                  (Except.ok.inj h).symm⟩
  · rintro ⟨tid, tpair, pv, sd, ed, dur, htid, h1, h2, h3, h4, h5, hr⟩
    rw [processEntry, htid]
    simp only [getItem, h1, h2, h3, h4, h5]
    rw [hr]

theorem preprocess_data_ok_elim {projects : List (Str × (Str × List (Str × Str)))}
    {tasks : List (Str × Str)} :
    ∀ {data : List RawEntry} {res : List ProcItem},
      preprocess_data projects tasks data = .ok res →
      (∀ r ∈ res, ∃ d ∈ data, processEntry projects tasks d = .ok r) ∧
      (∀ d ∈ data, ∃ r ∈ res, processEntry projects tasks d = .ok r) := by
  intro data
  induction data with
  | nil =>
    intro res h
    rw [preprocess_data] at h
    cases h
    exact ⟨fun r hr => absurd hr (List.not_mem_nil r),
      fun d hd => absurd hd (List.not_mem_nil d)⟩
  | cons d rest ih =>
    intro res h
    rw [preprocess_data] at h
    cases h1 : processEntry projects tasks d with
    | error e =>
      rw [h1] at h
      cases h
    | ok item =>
      rw [h1] at h
      cases h2 : preprocess_data projects tasks rest with
      | error e =>
        rw [h2] at h
        cases h
      | ok items =>
        rw [h2] at h
        cases h
        obtain ⟨ihA, ihB⟩ := ih h2
        constructor
        · intro r hr
          rcases List.mem_cons.mp hr with rfl | hr2
          · exact ⟨d, List.mem_cons_self d rest, h1⟩
          · obtain ⟨d2, hd2, hok⟩ := ihA r hr2
            exact ⟨d2, List.mem_cons_of_mem d hd2, hok⟩
        · intro d2 hd2
          rcases List.mem_cons.mp hd2 with rfl | hd3
          · exact ⟨item, List.mem_cons_self item items, h1⟩
          · obtain ⟨r, hr, hok⟩ := ihB d2 hd3
            exact ⟨r, List.mem_cons_of_mem item hr, hok⟩

/-- C5: in every successful run of the normalizer, each produced record
has `task_id = none` iff `task_name = none`; and the loop body for an
entry whose `taskId` is JSON `null` never consults the task table — its
result is identical for any two task tables — so the entry succeeds even
when the task table has no matching entry. -/
theorem C5_task_null_invariant
    (projects : List (Str × (Str × List (Str × Str))))
    (tasks tasks2 : List (Str × Str)) (data : List RawEntry)
    (res : List ProcItem) (datum : RawEntry)
    (hok : preprocess_data projects tasks data = .ok res)
    (hnull : datum.taskId = some none) :
    (∀ r ∈ res, (r.task_id = none ↔ r.task_name = none)) ∧
    processEntry projects tasks datum = processEntry projects tasks2 datum := by
  constructor
  · intro r hr
    obtain ⟨d, _, hok2⟩ := (preprocess_data_ok_elim hok).1 r hr
    obtain ⟨tid, tpair, pv, sd, ed, dur, htid, h1, _, _, _, _, hr2⟩ :=
      processEntry_ok_iff.mp hok2
    rcases taskFields_ok_iff.mp h1 with ⟨rfl, rfl⟩ | ⟨t, nm, rfl, _, rfl⟩
    · subst hr2
      simp
    · subst hr2
      simp
  · rw [processEntry, processEntry, hnull]
    simp only [getItem, taskFields]

/-- Witness for C5: concrete successful run over one null-task raw entry,
and the task-table independence at an empty versus a non-empty table. -/
theorem C5_task_null_invariant_witness :
    processEntry [(['P'], (['N'], []))] []
      { taskId := some none, projectId := ['P'], description := ['D'],
        timeInterval := { start := ['a','T'], end_ := ['b','T'],
                          duration := ['P','T','1','S'] } } =
    processEntry [(['P'], (['N'], []))] [(['X'], ['Y'])]
      { taskId := some none, projectId := ['P'], description := ['D'],
        timeInterval := { start := ['a','T'], end_ := ['b','T'],
                          duration := ['P','T','1','S'] } } :=
  (C5_task_null_invariant [(['P'], (['N'], []))] [] [(['X'], ['Y'])]
    [{ taskId := some none, projectId := ['P'], description := ['D'],
       timeInterval := { start := ['a','T'], end_ := ['b','T'],
                         duration := ['P','T','1','S'] } }]
    [{ task_id := none, task_name := none, project_id := ['P'],
       project_name := ['N'], description := ['d'],
       start_time_utc := ['a','T'], start_date_utc := ['a'],
       end_time_utc := ['b','T'], end_date_utc := ['b'],
       duration_seconds := 1 }]
    { taskId := some none, projectId := ['P'], description := ['D'],
      timeInterval := { start := ['a','T'], end_ := ['b','T'],
                        duration := ['P','T','1','S'] } }
    (by decide) rfl).2

/-- C6: a raw entry whose `projectId` is absent from the projects table,
or whose non-null `taskId` is absent from the flattened task table, makes
the loop body fail with a `KeyError`; such an entry cannot appear in the
input of a successful run (no skipping or defaulting); and every entry of
a successful run resolves its `projectId`, and its `taskId` whenever that
is non-null. -/
theorem C6_unresolved_lookup_fatal
    (projects : List (Str × (Str × List (Str × Str))))
    (tasks : List (Str × Str)) (datum : RawEntry)
    (data : List RawEntry) (res : List ProcItem)
    (hbad : dictGet projects datum.projectId = .error .keyError ∨
      ∃ t, datum.taskId = some (some t) ∧ dictGet tasks t = .error .keyError) :
    processEntry projects tasks datum = .error .keyError ∧
    (preprocess_data projects tasks data = .ok res → datum ∉ data) ∧
    (∀ data2 res2, preprocess_data projects tasks data2 = .ok res2 →
      ∀ d ∈ data2, (∃ pv, dictGet projects d.projectId = .ok pv) ∧
        (∀ t, d.taskId = some (some t) → ∃ nm, dictGet tasks t = .ok nm)) := by
  have hfail : processEntry projects tasks datum = .error .keyError := by
    rcases hbad with hperr | ⟨t, htid, hterr⟩
    · rw [processEntry]
      rcases htid : datum.taskId with _ | tid
      · rfl
      · simp only [getItem]
        cases h1 : taskFields tasks tid with
        | error e =>
          rcases tid with _ | t
          · rw [taskFields] at h1
            cases h1
          · rw [taskFields] at h1
            cases h2 : dictGet tasks t with
            | error e2 =>
              rw [h2] at h1
              cases h1
              rw [dictGet_error_eq h2]
            | ok nm =>
              rw [h2] at h1
              cases h1
        | ok tpair =>
          rw [hperr]
    · rw [processEntry, htid]
      simp only [getItem, taskFields, hterr]
  refine ⟨hfail, ?_, ?_⟩
  · intro hok hmem
    obtain ⟨r, _, hr⟩ := (preprocess_data_ok_elim hok).2 datum hmem
    rw [hfail] at hr
    cases hr
  · intro data2 res2 hok d hd
    obtain ⟨r, _, hr⟩ := (preprocess_data_ok_elim hok).2 d hd
    obtain ⟨tid, tpair, pv, _, _, _, htid, h1, h2, _, _, _, _⟩ :=
      processEntry_ok_iff.mp hr
    refine ⟨⟨pv, h2⟩, ?_⟩
    intro t ht
    rcases taskFields_ok_iff.mp h1 with ⟨rfl, _⟩ | ⟨t2, nm, heq, hl, _⟩
    · rw [htid] at ht
      cases ht
    · rw [heq] at htid
      rw [htid] at ht
      cases ht
      exact ⟨nm, hl⟩

/-- Witness for C6: an entry referencing a project ID absent from an
empty projects table fails with `KeyError`. -/
theorem C6_unresolved_lookup_fatal_witness :
    processEntry [] []
      { taskId := some none, projectId := ['Q'], description := [],
        timeInterval := { start := ['a','T'], end_ := ['b','T'],
                          duration := ['P','T','1','S'] } } =
      .error .keyError :=
  (C6_unresolved_lookup_fatal [] []
    { taskId := some none, projectId := ['Q'], description := [],
      timeInterval := { start := ['a','T'], end_ := ['b','T'],
                        duration := ['P','T','1','S'] } }
    [] [] (Or.inl rfl)).1

/-- C10: a raw entry lacking the `taskId` key entirely makes the loop
body raise `KeyError` instead of being treated as project-only, and any
record produced with `task_id = null` came from an entry whose `taskId`
key was present with value `null`. -/
theorem C10_absent_taskId_key
    (projects : List (Str × (Str × List (Str × Str))))
    (tasks : List (Str × Str)) (datum : RawEntry)
    (habs : datum.taskId = none) :
    processEntry projects tasks datum = .error .keyError ∧
    (∀ (datum2 : RawEntry) (r : ProcItem),
      processEntry projects tasks datum2 = .ok r → r.task_id = none →
      datum2.taskId = some none) := by
  constructor
  · rw [processEntry, habs]
    rfl
  · intro d2 r hok hnone
    obtain ⟨tid, tpair, _, _, _, _, htid, h1, _, _, _, _, hr⟩ :=
      processEntry_ok_iff.mp hok
    rcases taskFields_ok_iff.mp h1 with ⟨rfl, rfl⟩ | ⟨t, nm, heq, _, rfl⟩
    · exact htid
    · subst hr
      simp at hnone

/-- Witness for C10: a concrete raw entry with no `taskId` key fails with
`KeyError` even though every other field is well-formed. -/
theorem C10_absent_taskId_key_witness :
    processEntry [(['P'], (['N'], []))] []
      { taskId := none, projectId := ['P'], description := ['D'],
        timeInterval := { start := ['a','T'], end_ := ['b','T'],
                          duration := ['P','T','1','S'] } } =
      .error .keyError :=
  (C10_absent_taskId_key [(['P'], (['N'], []))] []
    { taskId := none, projectId := ['P'], description := ['D'],
      timeInterval := { start := ['a','T'], end_ := ['b','T'],
                        duration := ['P','T','1','S'] } } rfl).1

/-- C7: the end-to-end scenario from the spec: one raw entry for project
`P1` and task `T1`, worked one hour, normalizes to exactly one record
with the looked-up names, the lowercased description, the split start
date, and 3600 seconds. -/
theorem C7_end_to_end :
    preprocess_data
      [(['P','1'],
        (['P','r','o','j',' ','O','n','e'],
         [(['T','1'], ['T','a','s','k',' ','O','n','e'])]))]
      [(['T','1'], ['T','a','s','k',' ','O','n','e'])]
      [{ taskId := some (some ['T','1']), projectId := ['P','1'],
         description := ['W','o','r','k','e','d'],
         timeInterval :=
          { start := ['2','0','2','3','-','0','1','-','0','1','T','0','9',':','0','0',':','0','0','Z'],
            end_ := ['2','0','2','3','-','0','1','-','0','1','T','1','0',':','0','0',':','0','0','Z'],
            duration := ['P','T','1','H'] } }]
    = .ok [{ task_id := some ['T','1'],
             task_name := some ['T','a','s','k',' ','O','n','e'],
             project_id := ['P','1'],
             project_name := ['P','r','o','j',' ','O','n','e'],
             description := ['w','o','r','k','e','d'],
             start_time_utc := ['2','0','2','3','-','0','1','-','0','1','T','0','9',':','0','0',':','0','0','Z'],
             start_date_utc := ['2','0','2','3','-','0','1','-','0','1'],
             end_time_utc := ['2','0','2','3','-','0','1','-','0','1','T','1','0',':','0','0',':','0','0','Z'],
             end_date_utc := ['2','0','2','3','-','0','1','-','0','1'],
             duration_seconds := 3600 }] := by
  decide

/-! The tabular export and the page count. -/

theorem foldl_writerow (data : List ProcItem) :
    ∀ acc : List (List Cell),
      data.foldl (fun a pi => writerow a (csvRow pi)) acc = acc ++ data.map csvRow := by
  induction data with
  | nil =>
    intro acc
    simp
  | cons pi rest ih =>
    intro acc
    rw [List.foldl_cons, ih, List.map_cons, writerow]
    simp

/-- C8 (amended): `export_to_csv` writes the human-readable header row
`Project Name, Project ID, Task Name, Task ID, Description,
Start Time (UTC), Start Date (UTC), End Time (UTC), End Date (UTC),
Duration (Seconds)` followed by exactly one row per normalized record in
input order, each row in the column order `project_name, project_id,
task_name, task_id, description, start_time_utc, start_date_utc,
end_time_utc, end_date_utc, duration_seconds` — the same ten fields as
the normalized record, but with project before task and each name before
its ID, not in the §3 field-list order. -/
theorem C8_csv_layout (data : List ProcItem) :
    export_to_csv data = headerRow :: data.map csvRow ∧
    headerRow =
      [.str ['P','r','o','j','e','c','t',' ','N','a','m','e'],
       .str ['P','r','o','j','e','c','t',' ','I','D'],
       .str ['T','a','s','k',' ','N','a','m','e'],
       .str ['T','a','s','k',' ','I','D'],
       .str ['D','e','s','c','r','i','p','t','i','o','n'],
       .str ['S','t','a','r','t',' ','T','i','m','e',' ','(','U','T','C',')'],
       .str ['S','t','a','r','t',' ','D','a','t','e',' ','(','U','T','C',')'],
       .str ['E','n','d',' ','T','i','m','e',' ','(','U','T','C',')'],
       .str ['E','n','d',' ','D','a','t','e',' ','(','U','T','C',')'],
       .str ['D','u','r','a','t','i','o','n',' ','(','S','e','c','o','n','d','s',')']] := by
  constructor
  · rw [export_to_csv, foldl_writerow, writerow]
    simp
  · rfl

/-- Counterexample for C8 as stated: for a concrete record the exported
data row is not the record's §3 field list (`task_id` first); the first
column holds the project name, not the task ID. -/
theorem C8_csv_spec_order_counterexample :
    export_to_csv
      [{ task_id := some ['T'], task_name := some ['t'],
         project_id := ['P'], project_name := ['p'],
         description := ['d'], start_time_utc := ['s'],
         start_date_utc := ['u'], end_time_utc := ['e'],
         end_date_utc := ['f'], duration_seconds := 7 }] ≠
    headerRow ::
      [specFieldRow
        { task_id := some ['T'], task_name := some ['t'],
          project_id := ['P'], project_name := ['p'],
          description := ['d'], start_time_utc := ['s'],
          start_date_utc := ['u'], end_time_utc := ['e'],
          end_date_utc := ['f'], duration_seconds := 7 }] := by
  decide

theorem ceil_div_fifty (k : Nat) :
    ⌈(k : ℚ) / 50⌉ = (((k + 50 - 1) / 50 : Nat) : Int) := by
  rw [Int.ceil_eq_iff]
  have hdm := Nat.div_add_mod (k + 50 - 1) 50
  have hrlt : (k + 50 - 1) % 50 < 50 := Nat.mod_lt _ (by norm_num)
  set q := (k + 50 - 1) / 50
  set r := (k + 50 - 1) % 50
  constructor
  · rw [lt_div_iff₀ (by norm_num : (0:ℚ) < 50)]
    have hz : ((q:ℤ) - 1) * 50 < (k:ℤ) := by omega
    exact_mod_cast hz
  · rw [div_le_iff₀ (by norm_num : (0:ℚ) < 50)]
    have hz : (k:ℤ) ≤ (q:ℤ) * 50 := by omega
    exact_mod_cast hz

theorem roundHalfEven_bounds (x : ℚ) :
    x - 1/2 ≤ (roundHalfEven x : ℚ) ∧ (roundHalfEven x : ℚ) ≤ x + 1/2 := by
  have hf : (⌊x⌋ : ℚ) ≤ x := Int.floor_le x
  have hf2 : x < ⌊x⌋ + 1 := Int.lt_floor_add_one x
  rw [roundHalfEven]
  by_cases h1 : x - ⌊x⌋ < 1/2
  · rw [if_pos h1]
    constructor <;> linarith
  · rw [if_neg h1]
    by_cases h2 : 1/2 < x - ⌊x⌋
    · rw [if_pos h2]
      constructor <;> push_cast <;> linarith
    · rw [if_neg h2]
      by_cases h3 : ⌊x⌋ % 2 = 0
      · rw [if_pos h3]
        constructor <;> linarith
      · rw [if_neg h3]
        constructor <;> push_cast <;> linarith

theorem roundHalfEven_intCast (m : ℤ) : roundHalfEven ((m : ℚ)) = m := by
  rw [roundHalfEven, Int.floor_intCast]
  rw [if_pos (by norm_num)]

set_option maxHeartbeats 1000000 in
/-- Below `50 * 2 ^ 48` entries the binary64 quotient `n / 50` is close
enough to exact that `math.ceil` recovers the exact ceiling. -/
theorem num_pages_exact {n : Nat} (hn : n ≤ 50 * 2 ^ 48) :
    num_pages n = .ok ⌈(n : ℚ) / 50⌉ := by
  have h50 : ((ENTRIES_PER_PAGE : ℚ)) = 50 := by norm_num [ENTRIES_PER_PAGE]
  by_cases hn0 : n = 0
  · subst hn0
    rw [num_pages, float_truediv, if_neg (by norm_num [ENTRIES_PER_PAGE])]
    rw [show (((0:ℕ)):ℚ) / ((ENTRIES_PER_PAGE:ℚ)) = 0 by norm_num]
    rw [roundDouble, if_pos rfl]
    rw [if_pos (by norm_num : (0:ℚ) < 2 ^ (1024:ℕ))]
    norm_num
  · have hnpos : 0 < n := Nat.pos_of_ne_zero hn0
    set q : ℚ := (n : ℚ) / 50 with hqdef
    have hq0 : (0:ℚ) < q := by
      rw [hqdef]
      exact div_pos (by exact_mod_cast hnpos) (by norm_num)
    have hqle : q ≤ (2:ℚ) ^ (48:ℕ) := by
      rw [hqdef, div_le_iff₀ (by norm_num : (0:ℚ) < 50)]
      calc ((n:ℚ)) ≤ ((50 * 2 ^ 48 : ℕ) : ℚ) := by exact_mod_cast hn
        _ = 2 ^ 48 * 50 := by push_cast; ring
    have he48 : Int.log 2 q ≤ 48 := by
      have h1 : Int.log 2 q ≤ Int.log 2 (((2:ℕ):ℚ) ^ (48:ℤ)) := by
        apply Int.log_mono_right hq0
        rw [show ((2:ℕ):ℚ) ^ (48:ℤ) = (2:ℚ) ^ (48:ℕ) by push_cast; norm_num]
        exact hqle
      rwa [Int.log_zpow (by norm_num : 1 < 2)] at h1
    have hs0 : (0:ℤ) ≤ 52 - Int.log 2 q := by omega
    set t : ℕ := (52 - Int.log 2 q).toNat with htdef
    have hts : ((t:ℤ)) = 52 - Int.log 2 q := Int.toNat_of_nonneg hs0
    have ht4 : 4 ≤ t := by omega
    have hd : roundDouble q =
        ((roundHalfEven (q * (2:ℚ) ^ t) : ℚ)) / (2:ℚ) ^ t := by
      rw [roundDouble, if_neg (ne_of_gt hq0), ← hts, zpow_natCast]
    set m := roundHalfEven (q * (2:ℚ) ^ t) with hmdef
    obtain ⟨hmlo, hmhi⟩ := roundHalfEven_bounds (q * (2:ℚ) ^ t)
    rw [← hmdef] at hmlo hmhi
    have h2t : (0:ℚ) < (2:ℚ) ^ t := by positivity
    have h1t : (1:ℚ) ≤ (2:ℚ) ^ t := by
      calc (1:ℚ) = 1 ^ t := (one_pow t).symm
        _ ≤ 2 ^ t := pow_le_pow_left₀ (by norm_num) (by norm_num) t
    have hover : (m:ℚ) / (2:ℚ) ^ t < 2 ^ (1024:ℕ) := by
      rw [div_lt_iff₀ h2t]
      have hq2t : q * (2:ℚ) ^ t ≤ 2 ^ (48:ℕ) * 2 ^ t :=
        mul_le_mul_of_nonneg_right hqle (le_of_lt h2t)
      have hgap : (2:ℚ) ^ (48:ℕ) + 1 ≤ 2 ^ (1024:ℕ) := by norm_num
      have hhalf : (1:ℚ)/2 < 2 ^ t :=
        lt_of_lt_of_le (by norm_num : (1:ℚ)/2 < 1) h1t
      calc (m:ℚ) ≤ q * 2 ^ t + 1/2 := hmhi
        _ ≤ 2 ^ (48:ℕ) * 2 ^ t + 1/2 := add_le_add_right hq2t _
        _ < 2 ^ (48:ℕ) * 2 ^ t + 2 ^ t := add_lt_add_left hhalf _
        _ = ((2:ℚ) ^ (48:ℕ) + 1) * 2 ^ t := by ring
        _ ≤ 2 ^ (1024:ℕ) * 2 ^ t := mul_le_mul_of_nonneg_right hgap (le_of_lt h2t)
    have hflo : float_truediv n ENTRIES_PER_PAGE = .ok ((m:ℚ) / (2:ℚ) ^ t) := by
      rw [float_truediv, if_neg (by norm_num [ENTRIES_PER_PAGE])]
      rw [show (((n:ℕ)):ℚ) / ((ENTRIES_PER_PAGE:ℚ)) = q by rw [h50, hqdef]]
      rw [hd, if_pos hover]
    rw [num_pages, hflo]
    show Except.ok ⌈(m:ℚ) / (2:ℚ) ^ t⌉ = Except.ok ⌈q⌉
    have hceq : ⌈(m:ℚ) / (2:ℚ) ^ t⌉ = ⌈q⌉ := by
      by_cases hdvd : 50 ∣ n
      · obtain ⟨k, hk⟩ := hdvd
        have hqk : q = ((k:ℚ)) := by
          rw [hqdef, hk]
          push_cast
          exact mul_div_cancel_left₀ _ (by norm_num)
        have hqint : q * (2:ℚ) ^ t = (((k * 2 ^ t : ℕ) : ℤ) : ℚ) := by
          rw [hqk]
          push_cast
          ring
        have hm2 : m = ((k * 2 ^ t : ℕ) : ℤ) := by
          rw [hmdef, hqint, roundHalfEven_intCast]
        rw [hm2, hqk]
        rw [show ((((k * 2 ^ t : ℕ) : ℤ)):ℚ) / (2:ℚ) ^ t = ((k:ℚ)) by
          push_cast
          rw [mul_div_assoc, div_self (ne_of_gt h2t), mul_one]]
      · have hr0 : n % 50 ≠ 0 := fun h => hdvd (Nat.dvd_of_mod_eq_zero h)
        have hdm : 50 * (n / 50) + n % 50 = n := Nat.div_add_mod n 50
        set k : ℕ := n / 50 with hkdef
        set r : ℕ := n % 50 with hrdef
        have hr49 : r < 50 := Nat.mod_lt _ (by norm_num)
        have hr1 : 1 ≤ r := Nat.pos_of_ne_zero hr0
        have hqlow : ((k:ℚ)) + 1/50 ≤ q := by
          rw [hqdef, le_div_iff₀ (by norm_num : (0:ℚ) < 50)]
          have hc : ((50 * k + 1 : ℕ) : ℚ) ≤ ((n:ℚ)) := by
            exact_mod_cast (by omega : 50 * k + 1 ≤ n)
          push_cast at hc
          linarith
        have hqhigh : q < ((k:ℚ)) + 1 := by
          rw [hqdef, div_lt_iff₀ (by norm_num : (0:ℚ) < 50)]
          have hc : ((n:ℚ)) < ((50 * k + 50 : ℕ) : ℚ) := by
            exact_mod_cast (by omega : n < 50 * k + 50)
          push_cast at hc
          linarith
        have hnlt : n < 50 * 2 ^ 48 :=
          lt_of_le_of_ne hn (fun h => hdvd (by rw [h]; exact ⟨2 ^ 48, rfl⟩))
        have hql48 : q < (2:ℚ) ^ (48:ℕ) := by
          rw [hqdef, div_lt_iff₀ (by norm_num : (0:ℚ) < 50)]
          calc ((n:ℚ)) < ((50 * 2 ^ 48 : ℕ) : ℚ) := by exact_mod_cast hnlt
            _ = 2 ^ 48 * 50 := by push_cast; ring
        have he47 : Int.log 2 q ≤ 47 := by
          have h1 : q < ((2:ℕ):ℚ) ^ (48:ℤ) := by
            rw [show ((2:ℕ):ℚ) ^ (48:ℤ) = (2:ℚ) ^ (48:ℕ) by push_cast; norm_num]
            exact hql48
          have h2 := (Int.lt_zpow_iff_log_lt (by norm_num : 1 < 2) hq0).mp h1
          omega
        have ht5 : 5 ≤ t := by omega
        have h32 : (32:ℚ) ≤ (2:ℚ) ^ t := by
          calc (32:ℚ) = 2 ^ (5:ℕ) := by norm_num
            _ ≤ 2 ^ t := pow_le_pow_right₀ (by norm_num) ht5
        have hlowQ : ((k:ℚ)) * 2 ^ t + 1/2 < q * 2 ^ t := by
          have hstep : (((k:ℚ)) + 1/50) * 2 ^ t ≤ q * 2 ^ t :=
            mul_le_mul_of_nonneg_right hqlow (le_of_lt h2t)
          nlinarith [h32]
        have hlow : ((k:ℤ)) * 2 ^ t < m := by
          have hcast : ((k:ℚ)) * 2 ^ t < (m:ℚ) := by linarith [hmlo]
          exact_mod_cast (by push_cast; exact hcast :
            ((((k:ℤ)) * 2 ^ t : ℤ) : ℚ) < ((m:ℚ)))
        have hhighQ : (m:ℚ) < (((k:ℚ)) + 1) * 2 ^ t + 1/2 := by
          have hstep := mul_lt_mul_of_pos_right hqhigh h2t
          linarith [hmhi]
        have hhigh : m ≤ (((k:ℤ)) + 1) * 2 ^ t := by
          have hcast : (m:ℚ) < (((((k:ℤ)) + 1) * 2 ^ t : ℤ) : ℚ) + 1 := by
            push_cast
            linarith
          have hzlt : m < (((k:ℤ)) + 1) * 2 ^ t + 1 := by exact_mod_cast hcast
          omega
        have hceil1 : ⌈(m:ℚ) / (2:ℚ) ^ t⌉ = ((k:ℤ)) + 1 := by
          rw [Int.ceil_eq_iff]
          constructor
          · rw [lt_div_iff₀ h2t]
            have : ((((k:ℤ)) * 2 ^ t : ℤ) : ℚ) < ((m:ℚ)) := by exact_mod_cast hlow
            push_cast at this ⊢
            linarith
          · rw [div_le_iff₀ h2t]
            have : ((m:ℚ)) ≤ (((((k:ℤ)) + 1) * 2 ^ t : ℤ) : ℚ) := by exact_mod_cast hhigh
            push_cast at this ⊢
            linarith
        have hceil2 : ⌈q⌉ = ((k:ℤ)) + 1 := by
          rw [Int.ceil_eq_iff]
          constructor
          · push_cast
            linarith
          · push_cast
            linarith
        rw [hceil1, hceil2]
    rw [hceq]

/-- C9 (amended): with `ENTRIES_PER_PAGE` fixed at the constant 50, for
every requested minimum entry count `n` up to `50 * 2 ^ 48` — beyond
which binary64 rounding of the float quotient `n / 50` can lose the
final `+1` — the page count is exactly the ceiling of `n / 50`, whose
value is the natural-division formula `(n + 49) / 50`; in particular 125
entries give exactly 3 pages and 100 give exactly 2. -/
theorem C9_page_count (n : Nat) (hn : n ≤ 50 * 2 ^ 48) :
    num_pages n = .ok (((n + ENTRIES_PER_PAGE - 1) / ENTRIES_PER_PAGE : Nat)) ∧
    ((((n + ENTRIES_PER_PAGE - 1) / ENTRIES_PER_PAGE : Nat)) : Int) =
      ⌈(n : ℚ) / (ENTRIES_PER_PAGE : ℚ)⌉ ∧
    ENTRIES_PER_PAGE = 50 ∧
    num_pages 125 = .ok 3 ∧ num_pages 100 = .ok 2 := by
  have h50 : ((ENTRIES_PER_PAGE : ℚ)) = 50 := by norm_num [ENTRIES_PER_PAGE]
  refine ⟨?_, ?_, rfl, ?_, ?_⟩
  · rw [num_pages_exact hn, ceil_div_fifty n]
    simp only [ENTRIES_PER_PAGE]
  · rw [h50, ceil_div_fifty n]
    simp only [ENTRIES_PER_PAGE]
  · rw [num_pages_exact (by norm_num : (125:ℕ) ≤ 50 * 2 ^ 48), ceil_div_fifty 125]
    norm_num
  · rw [num_pages_exact (by norm_num : (100:ℕ) ≤ 50 * 2 ^ 48), ceil_div_fifty 100]
    norm_num

/-- Witness for C9 at the spec's two instances: a minimum of 125 entries
requests exactly 3 pages and 100 exactly 2. -/
theorem C9_page_count_witness :
    num_pages 125 = .ok 3 ∧ num_pages 100 = .ok 2 := by
  have h := C9_page_count 125 (by norm_num)
  exact ⟨h.2.2.2.1, h.2.2.2.2⟩

/-- Counterexample for C9 as stated: at `n = 50 * 2 ^ 48 + 1 =
14073748835532801` the float quotient `n / 50` rounds down to exactly
`2 ^ 48`, so the code requests `281474976710656` pages while the exact
ceiling of `n / 50` is `281474976710657`. -/
theorem C9_page_count_counterexample :
    num_pages 14073748835532801 = .ok 281474976710656 ∧
    ⌈((14073748835532801:ℕ) : ℚ) / (ENTRIES_PER_PAGE : ℚ)⌉ = 281474976710657 := by
  have h50 : ((ENTRIES_PER_PAGE : ℚ)) = 50 := by norm_num [ENTRIES_PER_PAGE]
  constructor
  · have hq0 : (0:ℚ) < (14073748835532801:ℚ) / 50 := by norm_num
    have hle : ((2:ℕ):ℚ) ^ (48:ℤ) ≤ (14073748835532801:ℚ) / 50 := by
      rw [show ((2:ℕ):ℚ) ^ (48:ℤ) = ((281474976710656:ℚ)) by push_cast; norm_num]
      rw [le_div_iff₀ (by norm_num : (0:ℚ) < 50)]
      norm_num
    have hlt : (14073748835532801:ℚ) / 50 < ((2:ℕ):ℚ) ^ (49:ℤ) := by
      rw [show ((2:ℕ):ℚ) ^ (49:ℤ) = ((562949953421312:ℚ)) by push_cast; norm_num]
      rw [div_lt_iff₀ (by norm_num : (0:ℚ) < 50)]
      norm_num
    have he : Int.log 2 ((14073748835532801:ℚ) / 50) = 48 := by
      have h1 := (Int.zpow_le_iff_le_log (by norm_num : 1 < 2) hq0).mp hle
      have h2 := (Int.lt_zpow_iff_log_lt (by norm_num : 1 < 2) hq0).mp hlt
      omega
    have hfloor : ⌊(14073748835532801:ℚ) / 50 * 2 ^ (4:ℤ)⌋ = 4503599627370496 := by
      rw [show (14073748835532801:ℚ) / 50 * 2 ^ (4:ℤ) = 112589990684262408/25 by
        norm_num]
      rw [Int.floor_eq_iff]
      constructor <;> push_cast <;> norm_num
    have hm : roundHalfEven ((14073748835532801:ℚ) / 50 * 2 ^ (4:ℤ)) =
        4503599627370496 := by
      rw [roundHalfEven, hfloor]
      rw [if_pos (by
        rw [show (14073748835532801:ℚ) / 50 * 2 ^ (4:ℤ) = 112589990684262408/25 by
          norm_num]
        push_cast
        norm_num)]
    have hd : roundDouble ((14073748835532801:ℚ) / 50) = 281474976710656 := by
      rw [roundDouble, if_neg (ne_of_gt hq0), he]
      rw [show ((52:ℤ) - 48) = (4:ℤ) by norm_num]
      rw [hm]
      push_cast
      norm_num
    rw [num_pages, float_truediv, if_neg (by norm_num [ENTRIES_PER_PAGE])]
    rw [show (((14073748835532801:ℕ)):ℚ) / ((ENTRIES_PER_PAGE:ℚ)) =
      (14073748835532801:ℚ) / 50 by rw [h50]; norm_num]
    rw [hd, if_pos (by norm_num : (281474976710656:ℚ) < 2 ^ (1024:ℕ))]
    show Except.ok ⌈(281474976710656:ℚ)⌉ = Except.ok (281474976710656:ℤ)
    have hc : ⌈(281474976710656:ℚ)⌉ = (281474976710656:ℤ) := by
      rw [Int.ceil_eq_iff]
      constructor <;> push_cast <;> norm_num
    rw [hc]
  · rw [h50]
    rw [show (((14073748835532801:ℕ)):ℚ) = (14073748835532801:ℚ) by norm_num]
    rw [Int.ceil_eq_iff]
    constructor
    · rw [show ((281474976710657:ℤ):ℚ) - 1 = 281474976710656 by norm_num]
      rw [lt_div_iff₀ (by norm_num : (0:ℚ) < 50)]
      norm_num
    · rw [div_le_iff₀ (by norm_num : (0:ℚ) < 50)]
      push_cast
      norm_num

end TimeTrack
